import Mathlib

/-!
Shallow embedding of `main.go` of the IMDS metadata-no-token scanner.

The program is a three-stage pipeline: enumerate EC2 regions
(`retrieveRegions`), drain a paginated instance listing per region
(`RegionInstances.retrieveInstances`), then sum the `MetadataNoToken`
CloudWatch statistic per instance (`RegionInstances.retrieveCloudwatchMetrics`)
and emit one CSV row per instance.

Modelling decisions, each traceable to the source:
* Go `float64` counters and datapoint sums are modelled as exact rationals
  (`ℚ`); datapoint summation is then exactly order-independent, which is the
  idealisation of "within floating-point tolerance".
* Go pointers that may be `nil` (`*string` instance ids, `*float64` datapoint
  sums, `*string` region names) are modelled as `Option`; an unguarded
  dereference of `none` is a distinguished `nilPanic` outcome.
* `log.Fatalf` terminates the process; it is modelled as a distinguished
  `fatalExit` outcome that aborts the run.
* The AWS paginator (`HasMorePages` / `NextPage`) is modelled, exactly as the
  repository's own mock pager does, by the list of successive `NextPage`
  results: `HasMorePages` is "the list is nonempty" and `NextPage` pops the
  head, which is either a page or an error.
* smithy's `errors.As`-extractable `APIError` is modelled by the `GoError.api`
  constructor carrying the error code and message; any other error is
  `GoError.plain`.
-/

namespace ImdsScan

/-- An EC2 `types.Instance`; only the `InstanceId *string` field is read. -/
structure Instance where
  InstanceId : Option String
deriving DecidableEq, Repr

/-- An EC2 `types.Reservation`; only the `Instances` field is read. -/
structure Reservation where
  Instances : List Instance
deriving DecidableEq, Repr

/-- One `ec2.DescribeInstancesOutput` page; only `Reservations` is read. -/
structure DescribeInstancesOutput where
  Reservations : List Reservation
deriving DecidableEq, Repr

/-- An EC2 `types.Region`; only `RegionName *string` is read. -/
structure Region where
  RegionName : Option String
deriving DecidableEq, Repr

/-- An `ec2.DescribeRegionsOutput`; only `Regions` is read. -/
structure DescribeRegionsOutput where
  Regions : List Region
deriving DecidableEq, Repr

/-- One CloudWatch `types.Datapoint`; only `Sum *float64` is read,
modelled as an optional rational. -/
structure Datapoint where
  Sum : Option ℚ
deriving DecidableEq, Repr

/-- The scanner's own record: `Ec2Instance` from `main.go`. -/
structure Ec2Instance where
  instanceId : String
  metadataNoTokenCalls : ℚ
deriving DecidableEq, Repr

/-- The scanner's per-region accumulator: `RegionInstances` from `main.go`. -/
structure RegionInstances where
  region : String
  instances : List Ec2Instance
deriving DecidableEq, Repr

/-- A Go `error` value as the scanner distinguishes them: `api` is an error
from which `errors.As` can extract a `smithy.APIError` (carrying its
`ErrorCode()` and `ErrorMessage()`), `plain` is any other error. -/
inductive GoError where
  | api (code : String) (message : String)
  | plain (message : String)
deriving DecidableEq, Repr

/-- The classification test at line 159 of `main.go`: the extracted API error
code is compared against the literal string `"UnathorizedOperation"`
(sic, as written in the source). -/
def isUnauthorizedOperation : GoError → Bool
  | .api code _ => code == "UnathorizedOperation"
  | .plain _ => false

/-- The message the scanner would log for an error. -/
def GoError.message : GoError → String
  | .api _ m => m
  | .plain m => m

/-- `addInstance` from `main.go`: `r.instances = append(r.instances, instance)`. -/
def RegionInstances.addInstance (r : RegionInstances) (inst : Ec2Instance) :
    RegionInstances :=
  { r with instances := r.instances ++ [inst] }

/-- Outcome of `retrieveInstances`: a normal return (`ok`), the early
`return err` taken when the error code matches the authorization check
(`authDenied`, carrying the state the receiver holds at that moment), the
`log.Fatalf` process abort on any other page-fetch error (`fatalExit`), or a
nil-pointer dereference panic (`nilPanic`). -/
inductive InstancesResult where
  | ok (r : RegionInstances)
  | authDenied (e : GoError) (r : RegionInstances)
  | fatalExit (e : GoError)
  | nilPanic
deriving DecidableEq, Repr

/-- The inner loop of `retrieveInstances` over one reservation's `Instances`:
each instance is appended via `addInstance` with its dereferenced id and the
counter initialised to `0.0`; a `nil` id would panic (`none`). -/
def addInstancesFromList (r : RegionInstances) :
    List Instance → Option RegionInstances
  | [] => some r
  | i :: rest =>
    match i.InstanceId with
    | none => none
    | some id =>
      addInstancesFromList
        (r.addInstance { instanceId := id, metadataNoTokenCalls := 0 }) rest

/-- The outer loop of `retrieveInstances` over a page's `Reservations`. -/
def addReservations (r : RegionInstances) :
    List Reservation → Option RegionInstances
  | [] => some r
  | res :: rest =>
    match addInstancesFromList r res.Instances with
    | none => none
    | some r' => addReservations r' rest

/-- `retrieveInstances` from `main.go`, with the paginator replaced by the
list of its successive `NextPage` results. On a page-fetch error whose code
matches the authorization check the function logs a warning and returns the
error (`authDenied`); any other page-fetch error hits `log.Fatalf`
(`fatalExit`). Pages after an error are never consulted. -/
def RegionInstances.retrieveInstances (r : RegionInstances) :
    List (Except GoError DescribeInstancesOutput) → InstancesResult
  | [] => .ok r
  | .error e :: _ =>
    if isUnauthorizedOperation e then .authDenied e r else .fatalExit e
  | .ok page :: rest =>
    match addReservations r page.Reservations with
    | none => .nilPanic
    | some r' => r'.retrieveInstances rest

/-- Whether an instance entry carries a present (non-nil) id. -/
def Instance.hasId (i : Instance) : Bool :=
  i.InstanceId.isSome

/-- The records a list of instance entries contributes: id dereferenced,
counter initialised to `0`. Entries with a nil id contribute nothing here
(the collector would panic on them instead; see `addInstancesFromList`). -/
def recordsList (l : List Instance) : List Ec2Instance :=
  l.filterMap fun i =>
    i.InstanceId.map fun id => { instanceId := id, metadataNoTokenCalls := 0 }

/-- All instance entries of a page, in reservation-then-entry order. -/
def pageInstances (p : DescribeInstancesOutput) : List Instance :=
  (p.Reservations.map Reservation.Instances).flatten

/-- Every instance entry on the page has a present id. -/
def pageAllIdsPresent (p : DescribeInstancesOutput) : Bool :=
  p.Reservations.all fun res => res.Instances.all Instance.hasId

/-- The records one page contributes, in reservation-then-entry order. -/
def recordsOfPage (p : DescribeInstancesOutput) : List Ec2Instance :=
  (p.Reservations.map fun res => recordsList res.Instances).flatten

/-- The records a sequence of pages contributes, in page arrival order. -/
def recordsOfPages (ps : List DescribeInstancesOutput) : List Ec2Instance :=
  (ps.map recordsOfPage).flatten

/-- The number of instance entries on a page. -/
def instanceCount (p : DescribeInstancesOutput) : Nat :=
  (pageInstances p).length

theorem addInstancesFromList_eq (r : RegionInstances) (l : List Instance)
    (h : l.all Instance.hasId = true) :
    addInstancesFromList r l
      = some { r with instances := r.instances ++ recordsList l } := by
  induction l generalizing r with
  | nil => simp [addInstancesFromList, recordsList]
  | cons i rest ih =>
    simp only [List.all_cons, Bool.and_eq_true] at h
    obtain ⟨hi, hrest⟩ := h
    match hId : i.InstanceId with
    | none => simp [Instance.hasId, hId] at hi
    | some id =>
      simp [addInstancesFromList, hId, ih _ hrest, RegionInstances.addInstance,
        recordsList, List.filterMap_cons, hId]

theorem addReservations_eq (r : RegionInstances) (rs : List Reservation)
    (h : rs.all (fun res => res.Instances.all Instance.hasId) = true) :
    addReservations r rs
      = some { r with
          instances := r.instances ++ (rs.map fun res => recordsList res.Instances).flatten } := by
  induction rs generalizing r with
  | nil => simp [addReservations]
  | cons res rest ih =>
    simp only [List.all_cons, Bool.and_eq_true] at h
    obtain ⟨hres, hrest⟩ := h
    simp [addReservations, addInstancesFromList_eq _ _ hres, ih _ hrest,
      List.append_assoc]

theorem retrieveInstances_ok_eq (r : RegionInstances)
    (pages : List DescribeInstancesOutput)
    (h : ∀ p ∈ pages, pageAllIdsPresent p = true) :
    r.retrieveInstances (pages.map Except.ok)
      = .ok { r with instances := r.instances ++ recordsOfPages pages } := by
  induction pages generalizing r with
  | nil => simp [RegionInstances.retrieveInstances, recordsOfPages]
  | cons p rest ih =>
    have hp : pageAllIdsPresent p = true := h p (by simp)
    have hrest : ∀ q ∈ rest, pageAllIdsPresent q = true := fun q hq => h q (by simp [hq])
    simp only [List.map_cons, RegionInstances.retrieveInstances,
      addReservations_eq _ _ hp, ih _ hrest, recordsOfPages, recordsOfPage,
      List.map_cons, List.flatten_cons, List.append_assoc]

theorem retrieveInstances_stops_at_error (r : RegionInstances)
    (pages : List DescribeInstancesOutput)
    (h : ∀ p ∈ pages, pageAllIdsPresent p = true)
    (e : GoError) (rest : List (Except GoError DescribeInstancesOutput)) :
    r.retrieveInstances (pages.map Except.ok ++ Except.error e :: rest)
      = if isUnauthorizedOperation e then
          .authDenied e { r with instances := r.instances ++ recordsOfPages pages }
        else .fatalExit e := by
  induction pages generalizing r with
  | nil => simp [RegionInstances.retrieveInstances, recordsOfPages]
  | cons p ps ih =>
    have hp : pageAllIdsPresent p = true := h p (by simp)
    have hps : ∀ q ∈ ps, pageAllIdsPresent q = true := fun q hq => h q (by simp [hq])
    simp only [List.map_cons, List.cons_append, List.append_eq,
      RegionInstances.retrieveInstances, addReservations_eq _ _ hp, ih _ hps,
      recordsOfPages, recordsOfPage, List.map_cons, List.flatten_cons,
      List.append_assoc]

theorem recordsList_length (l : List Instance)
    (h : l.all Instance.hasId = true) :
    (recordsList l).length = l.length := by
  induction l with
  | nil => simp [recordsList]
  | cons i rest ih =>
    simp only [List.all_cons, Bool.and_eq_true] at h
    obtain ⟨hi, hrest⟩ := h
    match hId : i.InstanceId with
    | none => simp [Instance.hasId, hId] at hi
    | some id =>
      have hcons : recordsList (i :: rest)
          = { instanceId := id, metadataNoTokenCalls := 0 } :: recordsList rest := by
        simp [recordsList, List.filterMap_cons, hId]
      rw [hcons, List.length_cons, ih hrest, List.length_cons]

theorem recordsOfPage_length (p : DescribeInstancesOutput)
    (h : pageAllIdsPresent p = true) :
    (recordsOfPage p).length = instanceCount p := by
  have h' : ∀ res ∈ p.Reservations, res.Instances.all Instance.hasId = true :=
    fun res hres => List.all_eq_true.mp h res hres
  simp only [recordsOfPage, instanceCount, pageInstances, List.length_flatten,
    List.map_map]
  congr 1
  apply List.map_congr_left
  intro res hres
  exact recordsList_length _ (h' res hres)

theorem recordsOfPages_length (ps : List DescribeInstancesOutput)
    (h : ∀ p ∈ ps, pageAllIdsPresent p = true) :
    (recordsOfPages ps).length = (ps.map instanceCount).sum := by
  simp only [recordsOfPages, List.length_flatten, List.map_map]
  congr 1
  apply List.map_congr_left
  intro p hp
  exact recordsOfPage_length p (h p hp)

/-- Outcome of `retrieveCloudwatchMetrics` on the instance list: the updated
list (`ok`), the `log.Fatalf` abort on a query error (`fatalExit`), or a
nil-pointer dereference of a datapoint's `Sum` (`nilPanic`). -/
inductive AggResult where
  | ok (instances : List Ec2Instance)
  | fatalExit (e : GoError)
  | nilPanic
deriving DecidableEq, Repr

/-- The datapoint loop at lines 209–211 of `main.go`:
`instance.metadataNoTokenCalls += *d.Sum` for each datapoint in order;
a nil `Sum` would panic (`none`). -/
def addDatapoints (c : ℚ) : List Datapoint → Option ℚ
  | [] => some c
  | d :: rest =>
    match d.Sum with
    | none => none
    | some s => addDatapoints (c + s) rest

/-- The per-instance loop of `retrieveCloudwatchMetrics`: for each instance in
order, issue one `GetMetricStatistics` query keyed by the instance id; a query
error hits `log.Fatalf`, otherwise the returned datapoints are summed into the
instance's counter. The query capability `q` abstracts the CloudWatch client
already scoped to the region. -/
def aggregateInstances (q : String → Except GoError (List Datapoint)) :
    List Ec2Instance → AggResult
  | [] => .ok []
  | inst :: rest =>
    match q inst.instanceId with
    | .error e => .fatalExit e
    | .ok dps =>
      match addDatapoints inst.metadataNoTokenCalls dps with
      | none => .nilPanic
      | some c =>
        match aggregateInstances q rest with
        | .ok insts => .ok ({ inst with metadataNoTokenCalls := c } :: insts)
        | .fatalExit e => .fatalExit e
        | .nilPanic => .nilPanic

/-- Outcome of `retrieveCloudwatchMetrics` on the whole `RegionInstances`. -/
inductive MetricsResult where
  | ok (r : RegionInstances)
  | fatalExit (e : GoError)
  | nilPanic
deriving DecidableEq, Repr

/-- `retrieveCloudwatchMetrics` from `main.go` (lines 179–213): the Go code
mutates the pointed-to `Ec2Instance` values in place; the net effect on the
receiver is the updated instance list. -/
def RegionInstances.retrieveCloudwatchMetrics (r : RegionInstances)
    (q : String → Except GoError (List Datapoint)) : MetricsResult :=
  match aggregateInstances q r.instances with
  | .ok insts => .ok { r with instances := insts }
  | .fatalExit e => .fatalExit e
  | .nilPanic => .nilPanic

/-- The datapoints a query returns for an id (empty on a query error, which
only feeds statements whose hypotheses rule the error out). -/
def dpsOf (q : String → Except GoError (List Datapoint)) (id : String) :
    List Datapoint :=
  match q id with
  | .ok dps => dps
  | .error _ => []

/-- The arithmetic sum of the present `Sum` values of a datapoint list. -/
def datapointTotal (dps : List Datapoint) : ℚ :=
  (dps.filterMap Datapoint.Sum).sum

/-- The query for this id succeeds and every returned datapoint has a present
`Sum` (so the aggregation neither aborts nor panics on it). -/
def querySafe (q : String → Except GoError (List Datapoint)) (id : String) :
    Bool :=
  match q id with
  | .error _ => false
  | .ok dps => dps.all fun d => d.Sum.isSome

/-- Every datapoint this query could deliver for the id has a present `Sum`
(a failing query is allowed: it aborts, it does not panic). -/
def sumsPresent (q : String → Except GoError (List Datapoint)) (id : String) :
    Bool :=
  match q id with
  | .error _ => true
  | .ok dps => dps.all fun d => d.Sum.isSome

/-- One instance's counter after aggregation: its prior value plus the sum of
the datapoints the query returns for its id. -/
def aggregated (q : String → Except GoError (List Datapoint))
    (inst : Ec2Instance) : Ec2Instance :=
  { inst with metadataNoTokenCalls :=
      inst.metadataNoTokenCalls + datapointTotal (dpsOf q inst.instanceId) }

theorem addDatapoints_eq (c : ℚ) (dps : List Datapoint)
    (h : dps.all (fun d => d.Sum.isSome) = true) :
    addDatapoints c dps = some (c + datapointTotal dps) := by
  induction dps generalizing c with
  | nil => simp [addDatapoints, datapointTotal]
  | cons d rest ih =>
    simp only [List.all_cons, Bool.and_eq_true] at h
    obtain ⟨hd, hrest⟩ := h
    match hS : d.Sum with
    | none => simp [hS] at hd
    | some s =>
      simp [addDatapoints, hS, ih _ hrest, datapointTotal,
        List.filterMap_cons, add_assoc]

theorem aggregateInstances_eq (q : String → Except GoError (List Datapoint))
    (insts : List Ec2Instance)
    (h : ∀ inst ∈ insts, querySafe q inst.instanceId = true) :
    aggregateInstances q insts = .ok (insts.map (aggregated q)) := by
  induction insts with
  | nil => simp [aggregateInstances]
  | cons inst rest ih =>
    have hinst : querySafe q inst.instanceId = true := h inst (by simp)
    have hrest : ∀ i ∈ rest, querySafe q i.instanceId = true :=
      fun i hi => h i (by simp [hi])
    match hq : q inst.instanceId with
    | .error e => simp [querySafe, hq] at hinst
    | .ok dps =>
      have hall : dps.all (fun d => d.Sum.isSome) = true := by
        simpa [querySafe, hq] using hinst
      simp [aggregateInstances, hq, addDatapoints_eq _ _ hall, ih hrest,
        aggregated, dpsOf, hq]

theorem retrieveCloudwatchMetrics_eq (r : RegionInstances)
    (q : String → Except GoError (List Datapoint))
    (h : ∀ inst ∈ r.instances, querySafe q inst.instanceId = true) :
    r.retrieveCloudwatchMetrics q
      = .ok { r with instances := r.instances.map (aggregated q) } := by
  simp [RegionInstances.retrieveCloudwatchMetrics, aggregateInstances_eq q _ h]

theorem datapointTotal_perm (l l' : List Datapoint) (h : l.Perm l') :
    datapointTotal l = datapointTotal l' :=
  List.Perm.sum_eq (List.Perm.filterMap Datapoint.Sum h)

theorem addDatapoints_mono (c c' : ℚ) (dps : List Datapoint)
    (hnn : ∀ d ∈ dps, ∀ s, d.Sum = some s → 0 ≤ s)
    (heq : addDatapoints c dps = some c') : c ≤ c' := by
  induction dps generalizing c with
  | nil =>
    simp only [addDatapoints, Option.some.injEq] at heq
    exact le_of_eq heq
  | cons d rest ih =>
    match hS : d.Sum with
    | none => simp [addDatapoints, hS] at heq
    | some s =>
      simp only [addDatapoints, hS] at heq
      have hs : 0 ≤ s := hnn d (by simp) s hS
      have hrest : ∀ d' ∈ rest, ∀ s', d'.Sum = some s' → 0 ≤ s' :=
        fun d' hd' s' hS' => hnn d' (by simp [hd']) s' hS'
      calc c ≤ c + s := by linarith
        _ ≤ c' := ih _ hrest heq

theorem aggregateInstances_mono (q : String → Except GoError (List Datapoint))
    (insts insts' : List Ec2Instance)
    (hnn : ∀ id dps, q id = .ok dps → ∀ d ∈ dps, ∀ s, d.Sum = some s → 0 ≤ s)
    (heq : aggregateInstances q insts = .ok insts') :
    List.Forall₂ (fun a b => a.metadataNoTokenCalls ≤ b.metadataNoTokenCalls)
      insts insts' := by
  induction insts generalizing insts' with
  | nil =>
    simp only [aggregateInstances] at heq
    cases heq
    exact List.Forall₂.nil
  | cons inst rest ih =>
    match hq : q inst.instanceId with
    | .error e => simp [aggregateInstances, hq] at heq
    | .ok dps =>
      simp only [aggregateInstances, hq] at heq
      match hadd : addDatapoints inst.metadataNoTokenCalls dps with
      | none => simp [hadd] at heq
      | some c =>
        simp only [hadd] at heq
        match hagg : aggregateInstances q rest with
        | .fatalExit e => simp [hagg] at heq
        | .nilPanic => simp [hagg] at heq
        | .ok insts₀ =>
          simp only [hagg, AggResult.ok.injEq] at heq
          subst heq
          exact List.Forall₂.cons
            (addDatapoints_mono _ _ _ (hnn inst.instanceId dps hq) hadd)
            (ih insts₀ hagg)

/-- `strconv.FormatFloat(v, 'f', 2, 64)` at line 108 of `main.go`, for the
non-negative counters this program produces: the value rounded to hundredths
and printed with exactly two digits after the decimal point. (Go rounds ties
to even on the binary value; on the exact rationals of this model `round` is
used, which only differs at exact halfway points.) -/
def formatFixed2 (v : ℚ) : String :=
  let y : ℚ := v * 100
  let n : Int := (2 * y.num + (y.den : Int)) / (2 * (y.den : Int))
  toString (n / 100) ++ "." ++
    (if n % 100 < 10 then "0" ++ toString (n % 100) else toString (n % 100))

theorem formatFixed2_num (q : ℚ) :
    (2 * q.num + (q.den : Int)) / (2 * (q.den : Int)) = round q := by
  rw [round_eq]
  have hd : ((q.den : ℚ)) ≠ 0 := by
    exact_mod_cast q.den_pos.ne'
  have hdq : (0 : ℚ) < (q.den : ℚ) := by
    exact_mod_cast q.den_pos
  have h2 := div_mul_cancel₀ ((q.num : ℚ)) hd
  rw [Rat.num_div_den] at h2
  have hq : q + 1 / 2
      = (((2 * q.num + (q.den : Int)) : Int) : ℚ)
        / (((2 * q.den : ℕ)) : ℚ) := by
    push_cast
    rw [eq_div_iff (by positivity)]
    linear_combination 2 * h2
  rw [hq, Rat.floor_intCast_div_natCast]
  push_cast
  ring_nf

/-- One CSV row as built at lines 104–109 of `main.go`:
`[region, instanceId, formatted counter]`, appended in that order. -/
def instanceRow (regionName : String) (e : Ec2Instance) : List String :=
  [regionName, e.instanceId, formatFixed2 e.metadataNoTokenCalls]

/-- The external capabilities the driver consumes, keyed by region name:
`pagesFor` is the per-region paginator (the successive `NextPage` results of
`ec2.NewDescribeInstancesPaginator` for that region), `metricsFor` is the
per-region CloudWatch query keyed further by instance id (the `Datapoints`
of `GetMetricStatistics`, or its error). -/
structure World where
  pagesFor : String → List (Except GoError DescribeInstancesOutput)
  metricsFor : String → String → Except GoError (List Datapoint)

/-- Console output the region loop of `main` produces, in order: the region
banner (line 77), the warning inside `retrieveInstances` (line 160), the
driver's warning before skipping a region (line 84), the no-instances info
(line 90), the per-instance metrics info (line 185), the summary banner
(line 96) and the per-instance summary line for counters above zero
(line 99). -/
inductive LogEvent where
  | bannerRegion (region : String)
  | warnNotAuthorized (message : String)
  | warnRetrieveError (message : String)
  | infoNoInstances (region : String)
  | infoRetrievingMetrics (instanceId : String)
  | bannerMetricsHeader (region : String)
  | printPositiveInstance (instanceId : String) (calls : ℚ)
deriving DecidableEq, Repr

/-- How one iteration of the region loop in `main` (lines 69–111) ends. -/
inductive RegionOutcome where
  | skippedNilName
  | skippedError (e : GoError)
  | skippedEmpty
  | fatalExit (e : GoError)
  | panicked
  | emitted (rows : List (List String))
deriving DecidableEq, Repr

/-- One iteration of the region loop of `main`, returning its outcome and the
console output it produced. A nil `RegionName` is skipped before anything
else happens. Otherwise a fresh `RegionInstances` is created, the paginator
is drained, a collection error skips the region with a warning, an empty
collection skips it with an info message, and else metrics are aggregated
and one CSV row per instance is written. (On the `fatalExit` and `panicked`
outcomes the process dies mid-iteration; the console output up to that point
is not tracked, as no claim concerns it.) -/
def processRegion (w : World) (reg : Region) : RegionOutcome × List LogEvent :=
  match reg.RegionName with
  | none => (.skippedNilName, [])
  | some name =>
    match RegionInstances.retrieveInstances ⟨name, []⟩ (w.pagesFor name) with
    | .authDenied e _ =>
      (.skippedError e,
       [.bannerRegion name, .warnNotAuthorized e.message,
        .warnRetrieveError e.message])
    | .fatalExit e => (.fatalExit e, [.bannerRegion name])
    | .nilPanic => (.panicked, [.bannerRegion name])
    | .ok r =>
      if r.instances.isEmpty then
        (.skippedEmpty, [.bannerRegion name, .infoNoInstances name])
      else
        match r.retrieveCloudwatchMetrics (w.metricsFor name) with
        | .fatalExit e => (.fatalExit e, [.bannerRegion name])
        | .nilPanic => (.panicked, [.bannerRegion name])
        | .ok r' =>
          (.emitted (r'.instances.map (instanceRow name)),
           .bannerRegion name ::
             r'.instances.map (fun i => .infoRetrievingMetrics i.instanceId)
             ++ [.bannerMetricsHeader name]
             ++ (r'.instances.filter
                   (fun i => decide (0 < i.metadataNoTokenCalls))).map
                 (fun i => .printPositiveInstance i.instanceId
                     i.metadataNoTokenCalls))

/-- Outcome of the whole region loop: the CSV rows (after the header) it
appended, terminated normally (`done`), by `log.Fatalf` (`fatalExit`, with
the rows of earlier regions already written), or by a nil dereference
(`panicked`). -/
inductive RunResult where
  | done (rows : List (List String))
  | fatalExit (rows : List (List String)) (e : GoError)
  | panicked (rows : List (List String))
deriving DecidableEq, Repr

/-- Prepend one region's rows onto the outcome of the rest of the run. -/
def RunResult.prependRows (rows : List (List String)) : RunResult → RunResult
  | .done rs => .done (rows ++ rs)
  | .fatalExit rs e => .fatalExit (rows ++ rs) e
  | .panicked rs => .panicked (rows ++ rs)

/-- The region loop of `main` over the region list `retrieveRegions`
returned: each region is processed in order; skipped regions contribute no
rows; a fatal error or panic ends the run keeping the rows already
written. -/
def runRegions (w : World) : List Region → RunResult
  | [] => .done []
  | reg :: rest =>
    match (processRegion w reg).1 with
    | .fatalExit e => .fatalExit [] e
    | .panicked => .panicked []
    | .emitted rows => RunResult.prependRows rows (runRegions w rest)
    | .skippedNilName => runRegions w rest
    | .skippedError _ => runRegions w rest
    | .skippedEmpty => runRegions w rest

/-- Outcome of `retrieveRegions`: the region list, or the `log.Fatalf`
process abort. -/
inductive RegionsResult where
  | ok (regions : List Region)
  | fatalExit (e : GoError)
deriving DecidableEq, Repr

/-- `retrieveRegions` from `main.go` (lines 137–144): one `DescribeRegions`
call; on any error `log.Fatalf` ends the run, otherwise the `Regions` field
is returned unchanged. -/
def retrieveRegions (call : Except GoError DescribeRegionsOutput) :
    RegionsResult :=
  match call with
  | .error e => .fatalExit e
  | .ok out => .ok out.Regions

theorem addInstancesFromList_mem_zero (l : List Instance)
    (r r' : RegionInstances) (h : addInstancesFromList r l = some r') :
    ∀ inst ∈ r'.instances, inst ∈ r.instances ∨ inst.metadataNoTokenCalls = 0 := by
  induction l generalizing r with
  | nil =>
    simp only [addInstancesFromList, Option.some.injEq] at h
    subst h
    exact fun inst hm => Or.inl hm
  | cons i rest ih =>
    match hId : i.InstanceId with
    | none => simp [addInstancesFromList, hId] at h
    | some id =>
      simp only [addInstancesFromList, hId] at h
      intro inst hm
      rcases ih _ h inst hm with hmem | hz
      · simp only [RegionInstances.addInstance, List.mem_append,
          List.mem_singleton] at hmem
        rcases hmem with hmem | hemem
        · exact Or.inl hmem
        · exact Or.inr (by simp [hemem])
      · exact Or.inr hz

theorem addReservations_mem_zero (rs : List Reservation)
    (r r' : RegionInstances) (h : addReservations r rs = some r') :
    ∀ inst ∈ r'.instances, inst ∈ r.instances ∨ inst.metadataNoTokenCalls = 0 := by
  induction rs generalizing r with
  | nil =>
    simp only [addReservations, Option.some.injEq] at h
    subst h
    exact fun inst hm => Or.inl hm
  | cons res rest ih =>
    simp only [addReservations] at h
    match hadd : addInstancesFromList r res.Instances with
    | none => simp [hadd] at h
    | some r₀ =>
      simp only [hadd] at h
      intro inst hm
      rcases ih _ h inst hm with hmem | hz
      · exact addInstancesFromList_mem_zero _ _ _ hadd inst hmem
      · exact Or.inr hz

theorem retrieveInstances_ok_mem_zero
    (ps : List (Except GoError DescribeInstancesOutput))
    (r r' : RegionInstances) (h : r.retrieveInstances ps = .ok r') :
    ∀ inst ∈ r'.instances, inst ∈ r.instances ∨ inst.metadataNoTokenCalls = 0 := by
  induction ps generalizing r with
  | nil =>
    simp only [RegionInstances.retrieveInstances, InstancesResult.ok.injEq] at h
    subst h
    exact fun inst hm => Or.inl hm
  | cons x rest ih =>
    match x with
    | .error e =>
      simp only [RegionInstances.retrieveInstances] at h
      by_cases he : isUnauthorizedOperation e <;> simp [he] at h
    | .ok page =>
      simp only [RegionInstances.retrieveInstances] at h
      match hadd : addReservations r page.Reservations with
      | none => simp [hadd] at h
      | some r₀ =>
        simp only [hadd] at h
        intro inst hm
        rcases ih _ h inst hm with hmem | hz
        · exact addReservations_mem_zero _ _ _ hadd inst hmem
        · exact Or.inr hz

theorem retrieveInstances_no_panic (r : RegionInstances)
    (ps : List (Except GoError DescribeInstancesOutput))
    (h : ∀ p : DescribeInstancesOutput, Except.ok p ∈ ps → pageAllIdsPresent p = true) :
    r.retrieveInstances ps ≠ .nilPanic := by
  induction ps generalizing r with
  | nil => simp [RegionInstances.retrieveInstances]
  | cons x rest ih =>
    match x with
    | .error e =>
      simp only [RegionInstances.retrieveInstances]
      by_cases he : isUnauthorizedOperation e <;> simp [he]
    | .ok page =>
      have hp : pageAllIdsPresent page = true := h page (by simp)
      have hrest : ∀ p : DescribeInstancesOutput, Except.ok p ∈ rest →
          pageAllIdsPresent p = true := fun p hm => h p (by simp [hm])
      simp only [RegionInstances.retrieveInstances, addReservations_eq _ _ hp]
      exact ih _ hrest

theorem addDatapoints_isSome (c : ℚ) (dps : List Datapoint)
    (h : dps.all (fun d => d.Sum.isSome) = true) :
    addDatapoints c dps ≠ none := by
  rw [addDatapoints_eq _ _ h]
  simp

theorem aggregateInstances_no_panic
    (q : String → Except GoError (List Datapoint)) (insts : List Ec2Instance)
    (h : ∀ inst ∈ insts, sumsPresent q inst.instanceId = true) :
    aggregateInstances q insts ≠ .nilPanic := by
  induction insts with
  | nil => simp [aggregateInstances]
  | cons inst rest ih =>
    have hrest : ∀ i ∈ rest, sumsPresent q i.instanceId = true :=
      fun i hi => h i (by simp [hi])
    have hinst := h inst (by simp)
    simp only [aggregateInstances]
    match hq : q inst.instanceId with
    | .error e => simp
    | .ok dps =>
      have hall : dps.all (fun d => d.Sum.isSome) = true := by
        simpa [sumsPresent, hq] using hinst
      match hadd : addDatapoints inst.metadataNoTokenCalls dps with
      | none => exact absurd hadd (addDatapoints_isSome _ _ hall)
      | some c =>
        match hagg : aggregateInstances q rest with
        | .ok insts₀ => simp [hadd]
        | .fatalExit e => simp [hadd]
        | .nilPanic => exact absurd hagg (ih hrest)

theorem pageInstances_nil_records (p : DescribeInstancesOutput)
    (h : pageInstances p = []) : recordsOfPage p = [] := by
  simp only [pageInstances, List.flatten_eq_nil_iff] at h
  simp only [recordsOfPage, List.flatten_eq_nil_iff]
  intro l hl
  simp only [List.mem_map] at hl
  obtain ⟨res, hres, rfl⟩ := hl
  have : res.Instances = [] := h res.Instances (List.mem_map_of_mem _ hres)
  simp [recordsList, this]

theorem pageInstances_nil_idsPresent (p : DescribeInstancesOutput)
    (h : pageInstances p = []) : pageAllIdsPresent p = true := by
  simp only [pageInstances, List.flatten_eq_nil_iff] at h
  simp only [pageAllIdsPresent, List.all_eq_true]
  intro res hres
  have : res.Instances = [] := h res.Instances (List.mem_map_of_mem _ hres)
  simp [this]

theorem processRegion_of_authDenied (w : World) (name : String) (e : GoError)
    (r₀ : RegionInstances)
    (h : RegionInstances.retrieveInstances ⟨name, []⟩ (w.pagesFor name)
        = .authDenied e r₀) :
    processRegion w ⟨some name⟩
      = (.skippedError e,
         [.bannerRegion name, .warnNotAuthorized e.message,
          .warnRetrieveError e.message]) := by
  simp only [processRegion, h]

theorem processRegion_of_fatal (w : World) (name : String) (e : GoError)
    (h : RegionInstances.retrieveInstances ⟨name, []⟩ (w.pagesFor name)
        = .fatalExit e) :
    processRegion w ⟨some name⟩ = (.fatalExit e, [.bannerRegion name]) := by
  simp only [processRegion, h]

theorem processRegion_of_ok_empty (w : World) (name : String)
    (r : RegionInstances)
    (h : RegionInstances.retrieveInstances ⟨name, []⟩ (w.pagesFor name) = .ok r)
    (hins : r.instances = []) :
    processRegion w ⟨some name⟩
      = (.skippedEmpty, [.bannerRegion name, .infoNoInstances name]) := by
  simp [processRegion, h, hins]

theorem processRegion_of_ok_nonempty (w : World) (name : String)
    (r r' : RegionInstances)
    (h : RegionInstances.retrieveInstances ⟨name, []⟩ (w.pagesFor name) = .ok r)
    (hne : r.instances ≠ [])
    (hm : r.retrieveCloudwatchMetrics (w.metricsFor name) = .ok r') :
    (processRegion w ⟨some name⟩).1
      = .emitted (r'.instances.map (instanceRow name)) := by
  simp [processRegion, h, hm, List.isEmpty_iff, hne]

theorem runRegions_cons_of_skippedError (w : World) (reg : Region)
    (rest : List Region) (e : GoError)
    (h : (processRegion w reg).1 = .skippedError e) :
    runRegions w (reg :: rest) = runRegions w rest := by
  simp only [runRegions]
  rw [h]

theorem runRegions_cons_of_skippedEmpty (w : World) (reg : Region)
    (rest : List Region)
    (h : (processRegion w reg).1 = .skippedEmpty) :
    runRegions w (reg :: rest) = runRegions w rest := by
  simp only [runRegions]
  rw [h]

theorem runRegions_cons_of_fatal (w : World) (reg : Region)
    (rest : List Region) (e : GoError)
    (h : (processRegion w reg).1 = .fatalExit e) :
    runRegions w (reg :: rest) = .fatalExit [] e := by
  simp only [runRegions]
  rw [h]

theorem runRegions_cons_of_emitted (w : World) (reg : Region)
    (rest : List Region) (rows : List (List String))
    (h : (processRegion w reg).1 = .emitted rows) :
    runRegions w (reg :: rest)
      = RunResult.prependRows rows (runRegions w rest) := by
  simp only [runRegions]
  rw [h]

/-- C1: a page-fetch error classified as authorization-denied makes
`retrieveInstances` stop fetching further pages (the result does not depend
on what the paginator would have returned next) and return the error as a
recoverable `authDenied`, upon which the driver skips the region and
continues with the next one; a page-fetch error of any other classification
aborts the whole run via `log.Fatalf`. -/
theorem retrieveInstances_error_policy
    (r : RegionInstances) (pages : List DescribeInstancesOutput)
    (h : ∀ p ∈ pages, pageAllIdsPresent p = true)
    (e : GoError)
    (rest rest' : List (Except GoError DescribeInstancesOutput)) :
    (isUnauthorizedOperation e = true →
      r.retrieveInstances (pages.map Except.ok ++ Except.error e :: rest)
          = .authDenied e
              { r with instances := r.instances ++ recordsOfPages pages }
        ∧ r.retrieveInstances (pages.map Except.ok ++ Except.error e :: rest)
          = r.retrieveInstances (pages.map Except.ok ++ Except.error e :: rest'))
    ∧ (isUnauthorizedOperation e = false →
        r.retrieveInstances (pages.map Except.ok ++ Except.error e :: rest)
          = .fatalExit e)
    ∧ (∀ (w : World) (name : String) (later : List Region),
        w.pagesFor name = pages.map Except.ok ++ Except.error e :: rest →
        (isUnauthorizedOperation e = true →
          runRegions w (⟨some name⟩ :: later) = runRegions w later)
        ∧ (isUnauthorizedOperation e = false →
          runRegions w (⟨some name⟩ :: later) = .fatalExit [] e)) := by
  have hstop := retrieveInstances_stops_at_error r pages h e rest
  have hstop' := retrieveInstances_stops_at_error r pages h e rest'
  refine ⟨fun ht => ⟨?_, ?_⟩, fun hf => ?_, fun w name later hp => ⟨fun ht => ?_, fun hf => ?_⟩⟩
  · rw [hstop, if_pos ht]
  · rw [hstop, hstop']
  · rw [hstop, if_neg (by simp [hf])]
  · have hfresh := retrieveInstances_stops_at_error ⟨name, []⟩ pages h e rest
    rw [if_pos ht] at hfresh
    exact runRegions_cons_of_skippedError w _ later e
      (by rw [processRegion_of_authDenied w name e _ (by rw [hp]; exact hfresh)])
  · have hfresh := retrieveInstances_stops_at_error ⟨name, []⟩ pages h e rest
    rw [if_neg (by simp [hf])] at hfresh
    exact runRegions_cons_of_fatal w _ later e
      (by rw [processRegion_of_fatal w name e (by rw [hp]; exact hfresh)])

/-- C2: with every page fetch succeeding, `retrieveInstances` appends exactly
one record per instance entry, in page-arrival then within-page order, with
nothing duplicated or dropped: the final collection is the prior collection
followed by the records of all pages, whose length is the sum of the pages'
instance counts; and `addInstance` appends at the end, so adding A then B
yields `[A, B]`. -/
theorem retrieveInstances_collects_in_order
    (r : RegionInstances) (pages : List DescribeInstancesOutput)
    (h : ∀ p ∈ pages, pageAllIdsPresent p = true) :
    r.retrieveInstances (pages.map Except.ok)
        = .ok { r with instances := r.instances ++ recordsOfPages pages }
    ∧ (recordsOfPages pages).length = (pages.map instanceCount).sum
    ∧ (∀ (r₀ : RegionInstances) (a b : Ec2Instance),
        ((r₀.addInstance a).addInstance b).instances
          = r₀.instances ++ [a, b]) := by
  refine ⟨retrieveInstances_ok_eq r pages h, recordsOfPages_length pages h, ?_⟩
  intro r₀ a b
  simp [RegionInstances.addInstance]

/-- C3: when every metric query succeeds and every datapoint carries a
present `Sum`, `retrieveCloudwatchMetrics` leaves each instance's counter at
its prior value plus the arithmetic sum of the returned datapoint sums (the
counters being exact rationals in this model, the sum is exactly
order-independent); with zero datapoints a counter keeps its prior (the
initialized 0) value. -/
theorem retrieveCloudwatchMetrics_sums_datapoints
    (r : RegionInstances) (q : String → Except GoError (List Datapoint))
    (hq : ∀ inst ∈ r.instances, querySafe q inst.instanceId = true) :
    r.retrieveCloudwatchMetrics q
        = .ok { r with instances := r.instances.map (aggregated q) }
    ∧ (∀ inst : Ec2Instance,
        (aggregated q inst).metadataNoTokenCalls
          = inst.metadataNoTokenCalls + datapointTotal (dpsOf q inst.instanceId))
    ∧ (∀ l l' : List Datapoint, l.Perm l' → datapointTotal l = datapointTotal l')
    ∧ (∀ inst : Ec2Instance, dpsOf q inst.instanceId = [] →
        (aggregated q inst).metadataNoTokenCalls = inst.metadataNoTokenCalls) := by
  refine ⟨retrieveCloudwatchMetrics_eq r q hq, fun inst => rfl,
    datapointTotal_perm, fun inst hnil => ?_⟩
  simp [aggregated, hnil, datapointTotal]

/-- C7: `retrieveRegions` consumes the result of the single `DescribeRegions`
call: on success it returns the `Regions` list unchanged (full and in order),
on any failure the run aborts via `log.Fatalf` with no retry and no partial
list returned. -/
theorem retrieveRegions_single_call_policy
    (out : DescribeRegionsOutput) (e : GoError) :
    retrieveRegions (Except.ok out) = .ok out.Regions
    ∧ retrieveRegions (Except.error e) = .fatalExit e :=
  ⟨rfl, rfl⟩

/-- C9: a region entry with a nil `RegionName` is skipped silently before
anything else happens in the loop body: no console output, an outcome
independent of every external capability (so no instance collection and no
metric query), no report rows, and the run continues with the next entry. -/
theorem nil_region_name_silently_skipped (w w' : World) (later : List Region) :
    processRegion w ⟨none⟩ = (.skippedNilName, [])
    ∧ processRegion w ⟨none⟩ = processRegion w' ⟨none⟩
    ∧ runRegions w (⟨none⟩ :: later) = runRegions w later :=
  ⟨rfl, rfl, rfl⟩

/-- C4: an authorization-denied error on page 2 of a 3-page region makes the
result independent of the third page (no further fetch matters), makes the
driver skip the region wholesale — the page-1 instances are discarded, the
run of this region contributes no rows and no metric query — and processing
continues with the next region. -/
theorem authDenied_on_middle_page_skips_region
    (w : World) (name : String) (p1 p3 : DescribeInstancesOutput)
    (e : GoError) (later : List Region)
    (h1 : pageAllIdsPresent p1 = true)
    (he : isUnauthorizedOperation e = true)
    (hp : w.pagesFor name = [Except.ok p1, Except.error e, Except.ok p3]) :
    (processRegion w ⟨some name⟩).1 = .skippedError e
    ∧ runRegions w (⟨some name⟩ :: later) = runRegions w later
    ∧ RegionInstances.retrieveInstances ⟨name, []⟩ (w.pagesFor name)
        = RegionInstances.retrieveInstances ⟨name, []⟩
            [Except.ok p1, Except.error e] := by
  have hall : ∀ p ∈ [p1], pageAllIdsPresent p = true := by
    intro p hm
    simp only [List.mem_singleton] at hm
    subst hm
    exact h1
  have hstop := retrieveInstances_stops_at_error ⟨name, []⟩ [p1] hall e
    [Except.ok p3]
  have hstop0 := retrieveInstances_stops_at_error ⟨name, []⟩ [p1] hall e []
  rw [if_pos he] at hstop hstop0
  have e1 : RegionInstances.retrieveInstances ⟨name, []⟩
      [Except.ok p1, Except.error e, Except.ok p3]
      = .authDenied e ⟨name, recordsOfPages [p1]⟩ := by
    simpa using hstop
  have e2 : RegionInstances.retrieveInstances ⟨name, []⟩
      [Except.ok p1, Except.error e]
      = .authDenied e ⟨name, recordsOfPages [p1]⟩ := by
    simpa using hstop0
  have hpr := processRegion_of_authDenied w name e ⟨name, recordsOfPages [p1]⟩
    (by rw [hp]; exact e1)
  refine ⟨by rw [hpr], ?_, by rw [hp, e1, e2]⟩
  exact runRegions_cons_of_skippedError w _ later e (by rw [hpr])

/-- C5: a region whose pagination yields zero pages, or only pages with zero
instance entries, is skipped as benign: the loop outcome is `skippedEmpty`,
it does not depend on the metric-query capability at all (no metric query is
issued), zero rows are emitted for the region, and the run continues with
the next region. -/
theorem empty_region_skipped_benign
    (pf : String → List (Except GoError DescribeInstancesOutput))
    (m m' : String → String → Except GoError (List Datapoint))
    (name : String) (later : List Region)
    (pages : List DescribeInstancesOutput)
    (hp : pf name = pages.map Except.ok)
    (hz : ∀ p ∈ pages, pageInstances p = []) :
    (processRegion ⟨pf, m⟩ ⟨some name⟩).1 = .skippedEmpty
    ∧ processRegion ⟨pf, m⟩ ⟨some name⟩ = processRegion ⟨pf, m'⟩ ⟨some name⟩
    ∧ runRegions ⟨pf, m⟩ (⟨some name⟩ :: later)
        = runRegions ⟨pf, m⟩ later := by
  have hids : ∀ p ∈ pages, pageAllIdsPresent p = true :=
    fun p hm => pageInstances_nil_idsPresent p (hz p hm)
  have hrec : recordsOfPages pages = [] := by
    simp only [recordsOfPages, List.flatten_eq_nil_iff]
    intro l hl
    obtain ⟨p, hpm, rfl⟩ := List.mem_map.mp hl
    exact pageInstances_nil_records p (hz p hpm)
  have hok : RegionInstances.retrieveInstances ⟨name, []⟩ (pf name)
      = .ok ⟨name, []⟩ := by
    rw [hp, retrieveInstances_ok_eq _ _ hids]
    simp [hrec]
  have h1 := processRegion_of_ok_empty ⟨pf, m⟩ name ⟨name, []⟩ hok rfl
  have h2 := processRegion_of_ok_empty ⟨pf, m'⟩ name ⟨name, []⟩ hok rfl
  exact ⟨by rw [h1], by rw [h1, h2],
    runRegions_cons_of_skippedEmpty _ _ _ (by rw [h1])⟩

/-- C6: a region that reaches the emission stage contributes exactly one row
per collected instance, each row `[region, instance id, counter formatted to
two decimal places]`, in collection order, placed before the rows of the
remaining regions; and the formatter renders 2 as "2.00" and 0 as "0.00". -/
theorem emitted_rows_shape_and_format
    (w : World) (name : String) (pages : List DescribeInstancesOutput)
    (later : List Region)
    (hp : w.pagesFor name = pages.map Except.ok)
    (hids : ∀ p ∈ pages, pageAllIdsPresent p = true)
    (hne : recordsOfPages pages ≠ [])
    (hq : ∀ inst ∈ recordsOfPages pages,
        querySafe (w.metricsFor name) inst.instanceId = true) :
    runRegions w (⟨some name⟩ :: later)
      = RunResult.prependRows
          ((recordsOfPages pages).map fun rec =>
            instanceRow name (aggregated (w.metricsFor name) rec))
          (runRegions w later)
    ∧ formatFixed2 2 = "2.00" ∧ formatFixed2 0 = "0.00" := by
  have hok : RegionInstances.retrieveInstances ⟨name, []⟩ (w.pagesFor name)
      = .ok ⟨name, recordsOfPages pages⟩ := by
    rw [hp, retrieveInstances_ok_eq _ _ hids]
    simp
  have hmet := retrieveCloudwatchMetrics_eq ⟨name, recordsOfPages pages⟩
    (w.metricsFor name) hq
  have hout := processRegion_of_ok_nonempty w name ⟨name, recordsOfPages pages⟩
    ⟨name, (recordsOfPages pages).map (aggregated (w.metricsFor name))⟩
    hok hne hmet
  refine ⟨?_, by simp only [formatFixed2]; norm_num; decide,
    by simp only [formatFixed2]; norm_num; decide⟩
  rw [runRegions_cons_of_emitted w _ later _ hout]
  simp only [List.map_map]
  rfl

/-- C8: every record `retrieveInstances` can deliver carries a counter
initialized to 0, and aggregation with non-negative datapoint sums never
decreases any counter (position by position). -/
theorem counters_start_zero_and_never_decrease :
    (∀ (name : String) (ps : List (Except GoError DescribeInstancesOutput))
        (r : RegionInstances),
        RegionInstances.retrieveInstances ⟨name, []⟩ ps = .ok r →
        ∀ inst ∈ r.instances, inst.metadataNoTokenCalls = 0)
    ∧ (∀ (r r' : RegionInstances)
        (q : String → Except GoError (List Datapoint)),
        (∀ id dps, q id = Except.ok dps →
          ∀ d ∈ dps, ∀ s, d.Sum = some s → 0 ≤ s) →
        r.retrieveCloudwatchMetrics q = .ok r' →
        List.Forall₂
          (fun a b => a.metadataNoTokenCalls ≤ b.metadataNoTokenCalls)
          r.instances r'.instances) := by
  constructor
  · intro name ps r h inst hm
    rcases retrieveInstances_ok_mem_zero ps _ _ h inst hm with hmem | hz
    · simp at hmem
    · exact hz
  · intro r r' q hnn h
    simp only [RegionInstances.retrieveCloudwatchMetrics] at h
    match hagg : aggregateInstances q r.instances with
    | .fatalExit e => simp [hagg] at h
    | .nilPanic => simp [hagg] at h
    | .ok insts =>
      rw [hagg] at h
      have hF := aggregateInstances_mono q r.instances insts hnn hagg
      simp only [MetricsResult.ok.injEq] at h
      subst h
      exact hF

/-- C10: under the precondition that every instance entry of every
successfully fetched page has a present id and every datapoint any metric
query could return has a present `Sum`, neither `retrieveInstances` nor
`retrieveCloudwatchMetrics` can end in the nil-dereference panic. -/
theorem no_nil_dereference_under_presence
    (r : RegionInstances) (ps : List (Except GoError DescribeInstancesOutput))
    (q : String → Except GoError (List Datapoint))
    (hids : ∀ p : DescribeInstancesOutput,
        Except.ok p ∈ ps → pageAllIdsPresent p = true)
    (hsums : ∀ inst ∈ r.instances, sumsPresent q inst.instanceId = true) :
    r.retrieveInstances ps ≠ .nilPanic
    ∧ r.retrieveCloudwatchMetrics q ≠ .nilPanic := by
  refine ⟨retrieveInstances_no_panic r ps hids, ?_⟩
  simp only [RegionInstances.retrieveCloudwatchMetrics]
  match hagg : aggregateInstances q r.instances with
  | .ok insts => simp
  | .fatalExit e => simp
  | .nilPanic => exact absurd hagg (aggregateInstances_no_panic q _ hsums)

/-- A one-instance page, instance id "123" (the repository's own test data). -/
def pageA : DescribeInstancesOutput := ⟨[⟨[⟨some "123"⟩]⟩]⟩

/-- A one-instance page, instance id "234" (the repository's own test data). -/
def pageB : DescribeInstancesOutput := ⟨[⟨[⟨some "234"⟩]⟩]⟩

/-- An API error carrying the code the scanner's authorization check matches. -/
def authErr : GoError := .api "UnathorizedOperation" "you are not authorized"

/-- An error the scanner does not classify as authorization-denied. -/
def plainErr : GoError := .plain "throttled"

/-- A datapoint with sum 1. -/
def dpOne : Datapoint := ⟨some 1⟩

/-- The metric query of the spec's example scenario: two datapoints of sum 1
for instance "123", none for anything else. -/
def qTest : String → Except GoError (List Datapoint) :=
  fun id => if id = "123" then .ok [dpOne, dpOne] else .ok []

/-- A world whose every region pages as `[pageA, auth error]`. -/
def wC1 : World :=
  ⟨fun _ => [Except.ok pageA, Except.error authErr], fun _ => qTest⟩

/-- A world whose every region pages as `[pageA, auth error, pageB]`. -/
def wC4 : World :=
  ⟨fun _ => [Except.ok pageA, Except.error authErr, Except.ok pageB],
   fun _ => qTest⟩

/-- A world whose every region has zero pages. -/
def wC5 : World := ⟨fun _ => [], fun _ => qTest⟩

/-- The spec's example region: pages `[pageA, pageB]`, metrics `qTest`. -/
def wC6 : World := ⟨fun _ => [Except.ok pageA, Except.ok pageB], fun _ => qTest⟩

theorem retrieveInstances_error_policy_witness :
    RegionInstances.retrieveInstances ⟨"us-east-1", []⟩
        (List.map Except.ok [pageA] ++ Except.error authErr :: [])
      = .authDenied authErr
          ⟨"us-east-1", ([] : List Ec2Instance) ++ recordsOfPages [pageA]⟩
    ∧ runRegions wC1 [⟨some "us-east-1"⟩] = runRegions wC1 [] :=
  ⟨((retrieveInstances_error_policy ⟨"us-east-1", []⟩ [pageA] (by decide)
      authErr [] []).1 (by decide)).1,
   ((retrieveInstances_error_policy ⟨"us-east-1", []⟩ [pageA] (by decide)
      authErr [] []).2.2 wC1 "us-east-1" [] rfl).1 (by decide)⟩

theorem retrieveInstances_collects_in_order_witness :
    RegionInstances.retrieveInstances ⟨"us-west-2", []⟩
        (List.map Except.ok [pageA, pageB])
      = .ok ⟨"us-west-2",
          ([] : List Ec2Instance) ++ recordsOfPages [pageA, pageB]⟩
    ∧ (recordsOfPages [pageA, pageB]).length
        = (List.map instanceCount [pageA, pageB]).sum :=
  ⟨(retrieveInstances_collects_in_order ⟨"us-west-2", []⟩ [pageA, pageB]
      (by decide)).1,
   (retrieveInstances_collects_in_order ⟨"us-west-2", []⟩ [pageA, pageB]
      (by decide)).2.1⟩

theorem retrieveCloudwatchMetrics_sums_datapoints_witness :
    RegionInstances.retrieveCloudwatchMetrics
        ⟨"us-west-2", recordsOfPages [pageA, pageB]⟩ qTest
      = .ok ⟨"us-west-2",
          (recordsOfPages [pageA, pageB]).map (aggregated qTest)⟩ :=
  (retrieveCloudwatchMetrics_sums_datapoints
    ⟨"us-west-2", recordsOfPages [pageA, pageB]⟩ qTest (by decide)).1

theorem authDenied_on_middle_page_skips_region_witness :
    (processRegion wC4 ⟨some "ap-south-1"⟩).1 = .skippedError authErr
    ∧ runRegions wC4 [⟨some "ap-south-1"⟩] = runRegions wC4 [] :=
  ⟨(authDenied_on_middle_page_skips_region wC4 "ap-south-1" pageA pageB
      authErr [] (by decide) (by decide) rfl).1,
   (authDenied_on_middle_page_skips_region wC4 "ap-south-1" pageA pageB
      authErr [] (by decide) (by decide) rfl).2.1⟩

theorem empty_region_skipped_benign_witness :
    (processRegion wC5 ⟨some "us-west-2"⟩).1 = .skippedEmpty
    ∧ runRegions wC5 [⟨some "us-west-2"⟩] = runRegions wC5 [] :=
  ⟨(empty_region_skipped_benign wC5.pagesFor wC5.metricsFor wC5.metricsFor
      "us-west-2" [] [] rfl (by decide)).1,
   (empty_region_skipped_benign wC5.pagesFor wC5.metricsFor wC5.metricsFor
      "us-west-2" [] [] rfl (by decide)).2.2⟩

theorem emitted_rows_shape_and_format_witness :
    runRegions wC6 [⟨some "us-west-2"⟩]
      = RunResult.prependRows
          ((recordsOfPages [pageA, pageB]).map fun rec =>
            instanceRow "us-west-2" (aggregated qTest rec))
          (runRegions wC6 [])
    ∧ formatFixed2 2 = "2.00" :=
  ⟨(emitted_rows_shape_and_format wC6 "us-west-2" [pageA, pageB] [] rfl
      (by decide) (by decide) (by decide)).1,
   (emitted_rows_shape_and_format wC6 "us-west-2" [pageA, pageB] [] rfl
      (by decide) (by decide) (by decide)).2.1⟩

theorem counters_start_zero_and_never_decrease_witness :
    ({ instanceId := "123", metadataNoTokenCalls := 0 } : Ec2Instance).metadataNoTokenCalls = 0
    ∧ List.Forall₂ (fun a b => a.metadataNoTokenCalls ≤ b.metadataNoTokenCalls)
        (RegionInstances.mk "us-west-2" []).instances
        (RegionInstances.mk "us-west-2" []).instances :=
  ⟨counters_start_zero_and_never_decrease.1 "us-west-2" [Except.ok pageA]
      ⟨"us-west-2", recordsOfPages [pageA]⟩ rfl ⟨"123", 0⟩ (by decide),
   counters_start_zero_and_never_decrease.2 ⟨"us-west-2", []⟩ ⟨"us-west-2", []⟩
      (fun _ => Except.ok [])
      (by
        intro id dps h d hd s hs
        injection h with h'
        subst h'
        exact absurd hd (List.not_mem_nil d))
      rfl⟩

theorem no_nil_dereference_under_presence_witness :
    RegionInstances.retrieveInstances ⟨"us-west-2", recordsOfPages [pageA]⟩
        [Except.ok pageA, Except.error plainErr] ≠ .nilPanic
    ∧ RegionInstances.retrieveCloudwatchMetrics
        ⟨"us-west-2", recordsOfPages [pageA]⟩ qTest ≠ .nilPanic :=
  no_nil_dereference_under_presence ⟨"us-west-2", recordsOfPages [pageA]⟩
    [Except.ok pageA, Except.error plainErr] qTest
    (by
      intro p hm
      simp only [List.mem_cons, List.not_mem_nil, or_false, reduceCtorEq,
        Except.ok.injEq] at hm
      subst hm
      decide)
    (by decide)

end ImdsScan
